import Mathlib

/-!
Verification of `react-hooks-use-form-state` (src/src/index.ts).

The file contains two implementations of the `useFormState` hook:
an older one built on `React.useState` (lines 1-49) and the current one
built on `React.useReducer` (lines 50-134).  Both persist a single piece
of state, the tagged union

  `FormState<S> = { isChanged: false } | { isChanged: true, value: S }`,

and on every render return
`formState.isChanged ? formState.value : unwrappedInitialState`.

We embed the data model and both transition functions, model an execution
as a fold of a step function over a list of host events (renders,
`setState` calls, `reset` calls), and prove the spec's claims about them.
-/

namespace FormHook

/-- The persisted hook state, `FormState<S>` from the source: a tagged union
with tag `isChanged`, carrying a stored `value` only when changed. -/
inductive FormState (S : Type) where
  | unchanged : FormState S
  | changed (value : S) : FormState S
deriving DecidableEq, Repr

/-- The tag projection `formState.isChanged`. -/
def FormState.isChangedTag {S : Type} : FormState S → Bool
  | FormState.unchanged => false
  | FormState.changed _ => true

/-- Embedding of `unwrap` from the `useState` implementation (lines 10-12):
`valueOrFn instanceof Function ? valueOrFn(...args) : valueOrFn`.
A value that is callable is the right summand; callability dispatch becomes
dispatch on the sum tag. -/
def unwrap {T A : Type} (valueOrFn : Sum T (A → T)) (args : A) : T :=
  match valueOrFn with
  | Sum.inr f => f args
  | Sum.inl v => v

/-- Embedding of `unwrap` from the `useReducer` implementation (lines 69-73):
`typeof valueOrFunction === 'function' ? valueOrFunction(...args) : valueOrFunction`. -/
def unwrapTypeof {T A : Type} (valueOrFunction : Sum T (A → T)) (args : A) : T :=
  match valueOrFunction with
  | Sum.inr f => f args
  | Sum.inl v => v

/-- The functional updater passed to `setFormState` by `setState` in the
`useState` implementation (lines 25-35): it unwraps the payload against
`prevState.isChanged ? prevState.value : unwrappedInitialState` and returns
`{ isChanged: true, value: newValue }`. -/
def setFormStateUpdater {S : Type} (unwrappedInitialState : S)
    (value : Sum S (S → S)) (prevState : FormState S) : FormState S :=
  let newValue := unwrap value
    (match prevState with
     | FormState.changed v => v
     | FormState.unchanged => unwrappedInitialState)
  FormState.changed newValue

/-- The action type `FormAction<S>` of the `useReducer` implementation
(lines 60-67): `{ type: 'SET_STATE', payload } | { type: 'RESET' }`. -/
inductive FormAction (S : Type) where
  | setStateAction (payload : Sum S (S → S)) : FormAction S
  | resetAction : FormAction S

/-- The reducer of the `useReducer` implementation (lines 89-101). -/
def formReducer {S : Type} (initialStateValue : S) (state : FormState S)
    (action : FormAction S) : FormState S :=
  match action with
  | FormAction.setStateAction payload =>
      FormState.changed (unwrapTypeof payload
        (match state with
         | FormState.changed v => v
         | FormState.unchanged => initialStateValue))
  | FormAction.resetAction => FormState.unchanged

/-- One host interaction with a hook instance: a render passing a fresh
`initialState` argument, a `setState(payload)` call, or a `reset()` call. -/
inductive Event (S : Type) where
  | render (initialState : Sum S (Unit → S)) : Event S
  | setValue (payload : Sum S (S → S)) : Event S
  | reset : Event S

/-- Machine state of one hook instance: the persisted `FormState` plus the
most recently resolved `unwrappedInitialState` (recomputed on every render
at line 17 resp. line 86; `setState`/`reset` processed between renders see
the value from the latest render). -/
def stepState {S : Type} (st : FormState S × S) (e : Event S) : FormState S × S :=
  match e with
  | Event.render initialState => (st.1, unwrap initialState ())
  | Event.setValue payload => (setFormStateUpdater st.2 payload st.1, st.2)
  | Event.reset => (FormState.unchanged, st.2)

/-- Execution of the `useState` implementation over a list of host events. -/
def runState {S : Type} (st : FormState S × S) (evs : List (Event S)) :
    FormState S × S :=
  evs.foldl stepState st

/-- The effective value returned by the `useState` implementation (line 48):
`formState.isChanged ? formState.value : unwrappedInitialState`. -/
def renderResult {S : Type} (st : FormState S × S) : S :=
  match st.1 with
  | FormState.changed v => v
  | FormState.unchanged => st.2

/-- Step function of the `useReducer` implementation: a render recomputes
`initialStateValue` (line 86); `setState` dispatches `SET_STATE` (lines
112-120); `reset` dispatches `RESET` (lines 122-126). -/
def stepReducer {S : Type} (st : FormState S × S) (e : Event S) : FormState S × S :=
  match e with
  | Event.render initialState => (st.1, unwrapTypeof initialState ())
  | Event.setValue payload =>
      (formReducer st.2 st.1 (FormAction.setStateAction payload), st.2)
  | Event.reset => (formReducer st.2 st.1 FormAction.resetAction, st.2)

/-- Execution of the `useReducer` implementation over a list of host events. -/
def runReducer {S : Type} (st : FormState S × S) (evs : List (Event S)) :
    FormState S × S :=
  evs.foldl stepReducer st

/-- The effective value returned by the `useReducer` implementation
(line 133): `state.isChanged ? state.value : initialStateValue`. -/
def renderResultReducer {S : Type} (st : FormState S × S) : S :=
  match st.1 with
  | FormState.changed v => v
  | FormState.unchanged => st.2

/-- Decides that a list of events consists of renders only (no `setState`
or `reset` call). -/
def onlyRenders {S : Type} (evs : List (Event S)) : Bool :=
  evs.all fun e =>
    match e with
    | Event.render _ => true
    | Event.setValue _ => false
    | Event.reset => false

/-! ### Handle identity (`useCallback` model)

`React.useCallback(fn, deps)` returns, on each render, the function object
memoized at the last render whose dependency list differed; it returns a
fresh object exactly when the current dependency values differ from the
previous render's.  We model the identity of the returned handle as a
generation number: generation `0` at the first render, incremented at every
render whose dependency value differs from the previous render's.  Two
renders hand out the identical object precisely when they are assigned the
same generation.  In the `useState` implementation, `setState` has the
dependency list `[unwrappedInitialState]` (line 37) and `reset` the empty
dependency list (line 43); in the `useReducer` implementation both have the
dependency list `[dispatch]` (lines 119, 126), and React guarantees that
`dispatch` is the same object on every render, so the dependency value is
constant, which we model by the dependency type `Unit`. -/

/-- Generation numbers of a `useCallback` handle over the renders after the
first, given the previous dependency value and the previous generation. -/
def genFrom {D : Type} [DecidableEq D] : D → Nat → List D → List Nat
  | _, _, [] => []
  | prev, g, d :: ds =>
      let g2 := if d = prev then g else g + 1
      g2 :: genFrom d g2 ds

/-- Generation numbers of a `useCallback` handle across a sequence of
renders, one dependency value per render. -/
def useCallbackGens {D : Type} [DecidableEq D] : List D → List Nat
  | [] => []
  | d :: ds => 0 :: genFrom d 0 ds

/-- Identity generations of the `setState` handle of the `useState`
implementation across renders with the given `initialState` arguments: its
dependency is the resolved `unwrappedInitialState` (line 37). -/
def setStateGensV1 {S : Type} [DecidableEq S]
    (inits : List (Sum S (Unit → S))) : List Nat :=
  useCallbackGens (inits.map fun i => unwrap i ())

/-- Identity generations of the `reset` handle of the `useState`
implementation: its dependency list is empty (line 43), modelled as the
constant dependency `()`. -/
def resetGensV1 {S : Type} (inits : List (Sum S (Unit → S))) : List Nat :=
  useCallbackGens (inits.map fun _ => ())

/-- Identity generations of the `setState` handle of the `useReducer`
implementation: its only dependency is the render-invariant `dispatch`
(line 119), modelled as the constant dependency `()`. -/
def setStateGensV2 {S : Type} (inits : List (Sum S (Unit → S))) : List Nat :=
  useCallbackGens (inits.map fun _ => ())

/-- Identity generations of the `reset` handle of the `useReducer`
implementation: its only dependency is the render-invariant `dispatch`
(line 126), modelled as the constant dependency `()`. -/
def resetGensV2 {S : Type} (inits : List (Sum S (Unit → S))) : List Nat :=
  useCallbackGens (inits.map fun _ => ())

/-- Decides that consecutive dependency values never change. -/
def depsStable {D : Type} [DecidableEq D] (ds : List D) : Bool :=
  match ds with
  | [] => true
  | d :: rest => rest.all fun x => x = d

/-! ### Fault propagation

The resolution of `initialState` happens at line 17 resp. line 86, before
and independently of the `isChanged` test of line 48 resp. line 133.  To
state what happens when the zero-argument resolving function throws, we
re-embed the render path with the resolving function returning in
`Except E`; the order of operations is exactly that of the source: resolve
first, then select by the tag. -/

/-- Resolution of `initialState` when the resolving function may fail:
`unwrap(initialState)` with a fallible zero-argument function. -/
def unwrapFallible {E T : Type} (valueOrFn : Sum T (Unit → Except E T)) :
    Except E T :=
  match valueOrFn with
  | Sum.inr f => f ()
  | Sum.inl v => Except.ok v

/-- One render of the hook with a fallible `initialState`: line 17/86
resolves unconditionally (a failure there propagates to the caller), and
then line 48/133 selects the effective value by the tag, raising nothing. -/
def renderFallible {S E : Type} (initialState : Sum S (Unit → Except E S))
    (formState : FormState S) : Except E S :=
  (unwrapFallible initialState).bind fun unwrappedInitialState =>
    Except.ok (match formState with
      | FormState.changed v => v
      | FormState.unchanged => unwrappedInitialState)

/-! ### Dynamic callability

In the source, `unwrap` decides at runtime whether its argument is callable
(`instanceof Function` / `typeof === 'function'`) and invokes it if so.  To
state claims about what happens when the state values themselves may be
functions, we use a small dynamic value domain: a value is either a
primitive or a closure identified by a code, and an interpretation `app`
gives every code its meaning on an argument list. -/

/-- A dynamic value: a primitive, or a callable closure identified by a
code number. -/
inductive Dyn where
  | prim (n : Nat) : Dyn
  | clos (code : Nat) : Dyn
deriving DecidableEq, Repr

/-- The runtime callability test (`instanceof Function`). -/
def isCallable : Dyn → Bool
  | Dyn.prim _ => false
  | Dyn.clos _ => true

/-- Embedding of `unwrap` over dynamic values:
`valueOrFn instanceof Function ? valueOrFn(...args) : valueOrFn`, where a
closure's call is given by the interpretation `app`. -/
def unwrapDyn (app : Nat → List Dyn → Dyn) (valueOrFn : Dyn)
    (args : List Dyn) : Dyn :=
  match valueOrFn with
  | Dyn.clos c => app c args
  | Dyn.prim n => Dyn.prim n

/-- One render over dynamic values: resolve `initialState` by
`unwrap(initialState)` with zero arguments (line 17), then return
`formState.isChanged ? formState.value : unwrappedInitialState` (line 48). -/
def renderDyn (app : Nat → List Dyn → Dyn) (initialState : Dyn)
    (formState : FormState Dyn) : Dyn :=
  let unwrappedInitialState := unwrapDyn app initialState []
  match formState with
  | FormState.changed v => v
  | FormState.unchanged => unwrappedInitialState

/-- The `setFormState` updater over dynamic values (lines 25-35): the
payload is unwrapped against the previous effective value. -/
def setFormStateUpdaterDyn (app : Nat → List Dyn → Dyn)
    (unwrappedInitialState : Dyn) (value : Dyn) (prevState : FormState Dyn) :
    FormState Dyn :=
  let newValue := unwrapDyn app value
    [match prevState with
     | FormState.changed v => v
     | FormState.unchanged => unwrappedInitialState]
  FormState.changed newValue

/-! ### Helper lemmas -/

/-- A run starting in the unchanged (tracking) state over renders only
keeps the tag unchanged and leaves the fold of the resolved external
values as the current `unwrappedInitialState`. -/
lemma runState_renders_tracking {S : Type} (c : S)
    (l : List (Sum S (Unit → S))) :
    runState (FormState.unchanged, c) (l.map Event.render) =
      (FormState.unchanged, l.foldl (fun _ i => unwrap i ()) c) := by
  induction l generalizing c with
  | nil => rfl
  | cons a l ih =>
      show runState (stepState (FormState.unchanged, c) (Event.render a))
        (l.map Event.render) = _
      rw [List.foldl_cons]
      exact ih (unwrap a ())

/-- Folding `fun _ x => f x` over the first `i + 1` elements yields `f`
applied to the element at index `i`. -/
lemma foldl_take_last {T S : Type} (f : T → S) (c : S) (l : List T)
    (i : Nat) (h : i < l.length) :
    (l.take (i + 1)).foldl (fun _ x => f x) c = f (l.get ⟨i, h⟩) := by
  induction l generalizing i c with
  | nil => exact absurd h (Nat.not_lt_zero i)
  | cons a l ih =>
      cases i with
      | zero => rfl
      | succ i =>
          show (l.take (i + 1)).foldl (fun _ x => f x) (f a) = _
          exact ih (f a) i (Nat.lt_of_succ_lt_succ h)

/-- A run starting in a changed (overridden) state over renders only keeps
the stored override. -/
lemma runState_renders_overridden {S : Type} (v : S) (c : S)
    (evs : List (Event S)) (h : onlyRenders evs = true) :
    (runState (FormState.changed v, c) evs).1 = FormState.changed v := by
  induction evs generalizing c with
  | nil => rfl
  | cons e evs ih =>
      cases e with
      | render init =>
          have h2 : onlyRenders evs = true := by
            simpa [onlyRenders] using h
          exact ih (unwrap init ()) h2
      | setValue p => simp [onlyRenders] at h
      | reset => simp [onlyRenders] at h

/-- The effective value of a machine state whose tag is changed is the
stored override. -/
lemma renderResult_of_changed {S : Type} (st : FormState S × S) (v : S)
    (h : st.1 = FormState.changed v) : renderResult st = v := by
  obtain ⟨fs, c⟩ := st
  cases h
  rfl

/-- When every later dependency value equals the one before it, `genFrom`
never increments the generation. -/
lemma genFrom_all_eq {D : Type} [DecidableEq D] (prev : D) (g : Nat)
    (ds : List D) (h : ds.all (fun x => x = prev) = true) :
    ∀ x ∈ genFrom prev g ds, x = g := by
  induction ds generalizing prev g with
  | nil => intro x hx; simp [genFrom] at hx
  | cons d ds ih =>
      rw [List.all_cons, Bool.and_eq_true] at h
      obtain ⟨hd, hrest⟩ := h
      have hd' : d = prev := by simpa using hd
      subst hd'
      intro x hx
      simp only [genFrom, if_pos rfl] at hx
      rcases List.mem_cons.mp hx with h0 | hmem
      · exact h0
      · exact ih d g hrest x hmem

/-- With a stable dependency list, every `useCallback` generation is the
initial one: the host hands out the identical handle on every render. -/
lemma useCallbackGens_all_zero {D : Type} [DecidableEq D] (ds : List D)
    (h : depsStable ds = true) : ∀ x ∈ useCallbackGens ds, x = 0 := by
  cases ds with
  | nil => intro x hx; simp [useCallbackGens] at hx
  | cons d rest =>
      intro x hx
      rw [useCallbackGens] at hx
      rcases List.mem_cons.mp hx with h0 | hmem
      · exact h0
      · exact genFrom_all_eq d 0 rest (by simpa [depsStable] using h) x hmem

/-- A dependency list of `Unit` values is always stable. -/
lemma depsStable_unit (l : List Unit) : depsStable l = true := by
  cases l with
  | nil => rfl
  | cons a rest =>
      simp only [depsStable, List.all_eq_true]
      intro x _
      cases x
      cases a
      decide

/-! ### Claims -/

/-- C1, tracking fidelity: starting in the tracking state, for every
sequence of `initialState` arguments fed to successive renders with no
`setState`/`reset` in between, the effective value returned at render `i`
is the resolved external value passed to that render. -/
theorem tracking_fidelity {S : Type} (cur0 : S)
    (inits : List (Sum S (Unit → S))) (i : Nat) (h : i < inits.length) :
    renderResult (runState (FormState.unchanged, cur0)
        ((inits.take (i + 1)).map Event.render)) =
      unwrap (inits.get ⟨i, h⟩) () := by
  rw [runState_renders_tracking]
  show (inits.take (i + 1)).foldl (fun _ x => unwrap x ()) cur0 = _
  exact foldl_take_last (fun x => unwrap x ()) cur0 inits i h

/-- Witness for C1 at the external-value sequence `[1, 2, 3]` and
invocation index `1`. -/
theorem tracking_fidelity_witness :
    renderResult (runState (FormState.unchanged, (0 : Nat))
        ((([Sum.inl 1, Sum.inl 2, Sum.inl 3] :
            List (Sum Nat (Unit → Nat))).take (1 + 1)).map Event.render)) =
      unwrap (([Sum.inl 1, Sum.inl 2, Sum.inl 3] :
          List (Sum Nat (Unit → Nat))).get ⟨1, by decide⟩) () :=
  tracking_fidelity 0 [Sum.inl 1, Sum.inl 2, Sum.inl 3] 1 (by decide)

/-- C2, override freeze: once `setState` is called with a plain
(non-function) payload `x`, every following render reports effective value
`x`, no matter which external value arguments those renders pass, as long
as no further `setState`/`reset` occurs. -/
theorem override_freeze {S : Type} (st : FormState S × S) (x : S)
    (evs : List (Event S)) (h : onlyRenders evs = true) :
    renderResult (runState (stepState st (Event.setValue (Sum.inl x))) evs) =
      x := by
  have key : stepState st (Event.setValue (Sum.inl x)) =
      (FormState.changed x, st.2) := rfl
  rw [key]
  exact renderResult_of_changed _ x (runState_renders_overridden x st.2 evs h)

/-- Witness for C2: after `setState(5)`, renders passing external values
`7` and `9` still report `5`. -/
theorem override_freeze_witness :
    renderResult (runState
        (stepState ((FormState.unchanged, 0) : FormState Nat × Nat)
          (Event.setValue (Sum.inl 5)))
        [Event.render (Sum.inl 7), Event.render (Sum.inl 9)]) = 5 :=
  override_freeze (FormState.unchanged, 0) 5
    [Event.render (Sum.inl 7), Event.render (Sum.inl 9)] (by decide)

/-- C3, functional updater correctness: `setState(f)` with a function
payload makes the effective value `f e`, where `e` is the effective value
at the time the call is processed — the stored override if the state is
changed, otherwise the current resolved external value; the next render
reports exactly that value. -/
theorem functional_updater_correct {S : Type} (st : FormState S × S)
    (f : S → S) (init : Sum S (Unit → S)) :
    renderResult (stepState st (Event.setValue (Sum.inr f))) =
      f (renderResult st) ∧
    renderResult (runState st [Event.setValue (Sum.inr f), Event.render init]) =
      f (renderResult st) := by
  obtain ⟨fs, c⟩ := st
  cases fs <;> exact ⟨rfl, rfl⟩

/-- C4, reset resumes tracking: `reset()` unconditionally returns the tag
to unchanged, and the next render reports whatever external value that
render passes. -/
theorem reset_resumes_tracking {S : Type} (st : FormState S × S)
    (init : Sum S (Unit → S)) :
    (stepState st Event.reset).1 = FormState.unchanged ∧
    renderResult (runState st [Event.reset, Event.render init]) =
      unwrap init () :=
  ⟨rfl, rfl⟩

/-- C5 counterexample: in the `useState` implementation the `setState`
handle is memoized with dependency list `[unwrappedInitialState]`
(line 37), so across two renders whose resolved external values differ
(`0` then `1`) the handle is a fresh object at the second render
(generation `1`, not the first render's generation `0`): it does not have
the same identity on every invocation. -/
theorem setState_identity_counterexample :
    setStateGensV1 ([Sum.inl 0, Sum.inl 1] : List (Sum Nat (Unit → Nat))) =
      [0, 1] ∧
    ¬ ∀ g ∈ setStateGensV1
        ([Sum.inl 0, Sum.inl 1] : List (Sum Nat (Unit → Nat))), g = 0 := by
  constructor
  · rfl
  · decide

/-- C5 amended: the `reset` handle of the `useState` implementation and
both handles of the `useReducer` implementation keep the same identity on
every invocation, even across invocations where the resolved external
value changes; the `setState` handle of the `useState` implementation
keeps the same identity only across invocations whose resolved external
values are unchanged. -/
theorem handle_stability_amended {S : Type} [DecidableEq S]
    (inits : List (Sum S (Unit → S))) :
    (∀ g ∈ resetGensV1 inits, g = 0) ∧
    (∀ g ∈ setStateGensV2 inits, g = 0) ∧
    (∀ g ∈ resetGensV2 inits, g = 0) ∧
    (depsStable (inits.map fun i => unwrap i ()) = true →
      ∀ g ∈ setStateGensV1 inits, g = 0) := by
  refine ⟨?_, ?_, ?_, fun h => ?_⟩
  · exact useCallbackGens_all_zero _ (depsStable_unit _)
  · exact useCallbackGens_all_zero _ (depsStable_unit _)
  · exact useCallbackGens_all_zero _ (depsStable_unit _)
  · exact useCallbackGens_all_zero _ h

/-- Witness for the amended C5 at concrete render sequences: with external
values `3, 4` all constant-dependency handles keep generation `0`, and
with unchanged external values `3, 3` so does the `useState` `setState`
handle. -/
theorem handle_stability_amended_witness :
    (resetGensV1 ([Sum.inl 3, Sum.inl 4] :
        List (Sum Nat (Unit → Nat)))).getD 1 99 = 0 ∧
    (setStateGensV2 ([Sum.inl 3, Sum.inl 4] :
        List (Sum Nat (Unit → Nat)))).getD 1 99 = 0 ∧
    (resetGensV2 ([Sum.inl 3, Sum.inl 4] :
        List (Sum Nat (Unit → Nat)))).getD 1 99 = 0 ∧
    (setStateGensV1 ([Sum.inl 3, Sum.inl 3] :
        List (Sum Nat (Unit → Nat)))).getD 1 99 = 0 := by
  refine ⟨?_, ?_, ?_, ?_⟩
  · exact (handle_stability_amended
      ([Sum.inl 3, Sum.inl 4] : List (Sum Nat (Unit → Nat)))).1 _ (by decide)
  · exact (handle_stability_amended
      ([Sum.inl 3, Sum.inl 4] : List (Sum Nat (Unit → Nat)))).2.1 _ (by decide)
  · exact (handle_stability_amended
      ([Sum.inl 3, Sum.inl 4] : List (Sum Nat (Unit → Nat)))).2.2.1 _ (by decide)
  · exact (handle_stability_amended
      ([Sum.inl 3, Sum.inl 3] : List (Sum Nat (Unit → Nat)))).2.2.2
      (by decide) _ (by decide)

/-- C6, batched update composition: within a batch processed before the
next render, each `setState` call folds over the state left by the calls
before it, so a functional payload appended to any batch receives the
effective value reflecting the whole batch, and two functional payloads in
sequence compose rather than both reading a stale snapshot. -/
theorem batched_fold_composition {S : Type} (st : FormState S × S)
    (batch : List (Event S)) (f g : S → S) :
    renderResult (runState st (batch ++ [Event.setValue (Sum.inr f)])) =
      f (renderResult (runState st batch)) ∧
    renderResult (runState st
        (batch ++ [Event.setValue (Sum.inr f), Event.setValue (Sum.inr g)])) =
      g (f (renderResult (runState st batch))) := by
  have key : ∀ (st' : FormState S × S) (h : S → S),
      renderResult (stepState st' (Event.setValue (Sum.inr h))) =
        h (renderResult st') := by
    intro st' h
    obtain ⟨fs, c⟩ := st'
    cases fs <;> rfl
  constructor
  · rw [runState, List.foldl_append]
    exact key _ f
  · rw [runState, List.foldl_append]
    exact (key _ g).trans (congrArg g (key _ f))

/-- C7, transition discipline: a render never changes the tag; the tag
goes from unchanged to changed only through a `setState` event and from
changed to unchanged only through a `reset` event; and from a changed
state every event either is a render keeping the stored value, a reset
discarding it, or a `setState` whose new stored value is recomputed from
the payload against the previous stored value. -/
theorem transition_discipline {S : Type} (st : FormState S × S) :
    (∀ init : Sum S (Unit → S), (stepState st (Event.render init)).1 = st.1) ∧
    (∀ e : Event S, (stepState st e).1.isChangedTag = true →
        st.1.isChangedTag = false → ∃ p, e = Event.setValue p) ∧
    (∀ e : Event S, st.1.isChangedTag = true →
        (stepState st e).1.isChangedTag = false → e = Event.reset) ∧
    (∀ (e : Event S) (v : S), st.1 = FormState.changed v →
        ((stepState st e).1 = FormState.changed v ∧ ∃ i, e = Event.render i) ∨
        ((stepState st e).1 = FormState.unchanged ∧ e = Event.reset) ∨
        (∃ p, e = Event.setValue p ∧
          (stepState st e).1 = FormState.changed (unwrap p v))) := by
  obtain ⟨fs, c⟩ := st
  refine ⟨fun _ => rfl, ?_, ?_, ?_⟩
  · intro e h1 h2
    cases e with
    | render init => rw [show (stepState (fs, c) (Event.render init)).1 = fs from rfl] at h1; rw [h1] at h2; cases h2
    | setValue p => exact ⟨p, rfl⟩
    | reset => cases h1
  · intro e h1 h2
    cases e with
    | render init => rw [show (stepState (fs, c) (Event.render init)).1 = fs from rfl] at h2; rw [h2] at h1; cases h1
    | setValue p => cases p <;> cases h2
    | reset => rfl
  · intro e v hv
    cases hv
    cases e with
    | render init => exact Or.inl ⟨rfl, init, rfl⟩
    | setValue p => exact Or.inr (Or.inr ⟨p, rfl, rfl⟩)
    | reset => exact Or.inr (Or.inl ⟨rfl, rfl⟩)

/-- Witness for C7 at concrete states: a tag change upward at
`(unchanged, 0)` under `setState(7)` exhibits a `setState` payload, a tag
change downward at `(changed 5, 0)` is the reset event, and from
`(changed 5, 0)` the reset event lands in the reset branch of the
characterization. -/
theorem transition_discipline_witness :
    (∃ p, (Event.setValue (Sum.inl 7) : Event Nat) = Event.setValue p) ∧
    (Event.reset : Event Nat) = Event.reset ∧
    (((stepState ((FormState.changed 5, 0) : FormState Nat × Nat)
          Event.reset).1 = FormState.changed 5 ∧
        ∃ i, (Event.reset : Event Nat) = Event.render i) ∨
      ((stepState ((FormState.changed 5, 0) : FormState Nat × Nat)
          Event.reset).1 = FormState.unchanged ∧
        (Event.reset : Event Nat) = Event.reset) ∨
      (∃ p, (Event.reset : Event Nat) = Event.setValue p ∧
        (stepState ((FormState.changed 5, 0) : FormState Nat × Nat)
          Event.reset).1 = FormState.changed (unwrap p 5))) := by
  refine ⟨?_, ?_, ?_⟩
  · exact (transition_discipline
      ((FormState.unchanged, 0) : FormState Nat × Nat)).2.1
      (Event.setValue (Sum.inl 7)) (by decide) (by decide)
  · exact (transition_discipline
      ((FormState.changed 5, 0) : FormState Nat × Nat)).2.2.1
      Event.reset (by decide) (by decide)
  · exact (transition_discipline
      ((FormState.changed 5, 0) : FormState Nat × Nat)).2.2.2
      Event.reset 5 rfl

/-- C8, error propagation: whatever the override state, a render first
resolves `initialState`; if the resolving function fails, that failure is
the render's result (propagated, not caught), and in that regime the
primitive itself raises nothing: whenever resolution succeeds, or the
argument is a plain value, the render returns the effective value
normally. -/
theorem initial_fault_propagation {S E : Type} (fs : FormState S) :
    (∀ (f : Unit → Except E S) (e : E), f () = Except.error e →
        renderFallible (Sum.inr f) fs = Except.error e) ∧
    (∀ (f : Unit → Except E S) (v : S), f () = Except.ok v →
        renderFallible (Sum.inr f) fs = Except.ok (renderResult (fs, v))) ∧
    (∀ v : S, renderFallible (Sum.inl v) fs =
        (Except.ok (renderResult (fs, v)) : Except E S)) := by
  refine ⟨?_, ?_, ?_⟩
  · intro f e h
    have key : renderFallible (Sum.inr f) fs =
        (f ()).bind fun u => Except.ok (match fs with
          | FormState.changed v => v
          | FormState.unchanged => u) := rfl
    rw [key, h]
    rfl
  · intro f v h
    have key : renderFallible (Sum.inr f) fs =
        (f ()).bind fun u => Except.ok (match fs with
          | FormState.changed v => v
          | FormState.unchanged => u) := rfl
    rw [key, h]
    cases fs <;> rfl
  · intro v
    cases fs <;> rfl

/-- Witness for C8: a throwing resolver fails the render even while
overridden at `5`, and a succeeding resolver yields the tracked value in
the unchanged state. -/
theorem initial_fault_propagation_witness :
    renderFallible (Sum.inr fun _ => (Except.error 42 : Except Nat Nat))
      (FormState.changed 5) = Except.error 42 ∧
    renderFallible (Sum.inr fun _ => (Except.ok 7 : Except Nat Nat))
      FormState.unchanged = Except.ok 7 := by
  constructor
  · exact (initial_fault_propagation (FormState.changed 5)).1
      (fun _ => Except.error 42) 42 rfl
  · exact (initial_fault_propagation FormState.unchanged).2.1
      (fun _ => Except.ok 7) 7 rfl

/-- C9, implementation equivalence: over every initial machine state and
every sequence of host events, the `useState` implementation and the
`useReducer` implementation produce the same persisted state and the same
effective value. -/
theorem implementation_equivalence {S : Type} (st : FormState S × S)
    (evs : List (Event S)) :
    runReducer st evs = runState st evs ∧
    renderResultReducer (runReducer st evs) =
      renderResult (runState st evs) := by
  have hstep : ∀ (st' : FormState S × S) (e : Event S),
      stepReducer st' e = stepState st' e := by
    intro st' e
    obtain ⟨fs, c⟩ := st'
    cases e with
    | render init => cases init <;> rfl
    | setValue p => cases fs <;> cases p <;> rfl
    | reset => rfl
  have hrun : runReducer st evs = runState st evs := by
    induction evs generalizing st with
    | nil => rfl
    | cons e evs ih =>
        show runReducer (stepReducer st e) evs = runState (stepState st e) evs
        rw [hstep st e]
        exact ih (stepState st e)
  have hres : ∀ st' : FormState S × S,
      renderResultReducer st' = renderResult st' := by
    intro st'
    obtain ⟨fs, c⟩ := st'
    cases fs <;> rfl
  exact ⟨hrun, by rw [hrun, hres]⟩

/-- C10, function values cannot be stored literally: `unwrap` dispatches
on callability, so a callable `initialState` is always invoked with zero
arguments and a callable `setState` payload is always invoked with the
previous effective value — the stored state becomes the call's result,
never the callable itself — while a non-callable value is always used
literally. -/
theorem callable_dispatch (app : Nat → List Dyn → Dyn) (fs : FormState Dyn)
    (u : Dyn) :
    (∀ c : Nat, unwrapDyn app (Dyn.clos c) [] = app c []) ∧
    (∀ c : Nat, renderDyn app (Dyn.clos c) fs =
        (match fs with
         | FormState.changed v => v
         | FormState.unchanged => app c [])) ∧
    (∀ c : Nat, setFormStateUpdaterDyn app u (Dyn.clos c) fs =
        FormState.changed (app c
          [match fs with
           | FormState.changed v => v
           | FormState.unchanged => u])) ∧
    (∀ n : Nat, unwrapDyn app (Dyn.prim n) [] = Dyn.prim n) ∧
    (∀ n : Nat, setFormStateUpdaterDyn app u (Dyn.prim n) fs =
        FormState.changed (Dyn.prim n)) := by
  cases fs <;>
    exact ⟨fun c => rfl, fun c => rfl, fun c => rfl, fun n => rfl, fun n => rfl⟩

end FormHook
